import Mathlib

/-!
Verification of the oompa request/reply RPC library.

The development shallowly embeds the client coordinator (`src/client.js`),
the WebSocket server dispatcher (`src/index.js`, and its push-capable
variant), the HTTP server variant (`src/server.js`) and the concurrency
pool (`src/middleware/pool/promise-pool.js`).

Modelling conventions:

* JSON values are the inductive `Val`; a thrown native `Error` object is
  `Val.jsError name message` (its `toString()` is `name ++ ": " ++ message`).
* The client's event emitter is modelled by an explicit table of the
  one-shot listeners that `dispatch` registers (`REPLY:<id>`, `OK:<id>`,
  `ERR:<id>`), keyed by the literal event-name strings the source builds,
  plus a log `emitted` of every `emit(name, arg)` call.
* A JS promise is `PromiseState`; settling an already-settled promise is a
  no-op (`settleP`), as in JS.
* `setInterval` timers are modelled by a table from request id to the
  remaining retransmission count together with the captured request; one
  firing of the interval callback of `_getTimeoutAgent` is `tickTimer`.
* Asynchronous delivery is modelled by an arbitrary interleaving of
  incoming messages and timer firings (`Sig`, `runSigs`).
-/

namespace Oompa

/-- A JSON-ish runtime value. `undefined` is JS `undefined`; `jsError` is a
native `Error` object with its `name` and `message`. -/
inductive Val where
  | undefined
  | vnull
  | str (s : String)
  | num (n : Int)
  | obj (fields : List (String × Val))
  | jsError (name message : String)

/-- Property access `v[k]`: only objects have fields, anything else gives
`undefined`. -/
def Val.getField : Val → String → Val
  | .obj fields, k =>
      match fields.find? (fun p => p.1 == k) with
      | some p => p.2
      | none => .undefined
  | _, _ => .undefined

/-- Association-list lookup (JS object property read, first match). -/
def lookupA {α : Type} (k : String) : List (String × α) → Option α
  | [] => none
  | p :: ps => if p.1 = k then some p.2 else lookupA k ps

/-- Association-list deletion (JS `delete obj[k]`). -/
def eraseA {α : Type} (k : String) : List (String × α) → List (String × α)
  | [] => []
  | p :: ps => if p.1 = k then eraseA k ps else p :: eraseA k ps

/-- Update every entry stored under key `k`. -/
def mapAtA {α : Type} (k : String) (f : α → α) :
    List (String × α) → List (String × α)
  | [] => []
  | p :: ps => (if p.1 = k then (p.1, f p.2) else p) :: mapAtA k f ps

/-- The values stored under key `k`, in order. -/
def selectA {α : Type} (k : String) : List (String × α) → List α
  | [] => []
  | p :: ps => if p.1 = k then p.2 :: selectA k ps else selectA k ps

/-- A wire request `{type, id, payload}` (also the client's task shape). -/
structure Request where
  type : String
  id : String
  payload : Val

/-- The state of the one dispatch promise: JS promises settle at most once. -/
inductive PromiseState where
  | unsettled
  | resolved (v : Val)
  | rejectedErr (e : Val)
  | rejectedTimeout

/-- Settling is a no-op on an already settled promise (JS semantics). -/
def settleP : PromiseState → PromiseState → PromiseState
  | .unsettled, n => n
  | o, _ => o

/-- Settle the promise stored under `k`. -/
def settleAtA (k : String) (n : PromiseState) :
    List (String × PromiseState) → List (String × PromiseState) :=
  mapAtA k (fun o => settleP o n)

/-- The one-shot listeners `dispatch` registers: the `REPLY:<id>` cleanup
listener, and the `OK:<id>` / `ERR:<id>` resolution listeners. -/
inductive ListenerAct where
  | replyAct (id : String)
  | okAct (id : String)
  | errAct (id : String)

/-- An incoming wire message as the client reads its fields. -/
structure Msg where
  type : String
  id : String
  event : String
  payload : Val
  error : Val

/-- The message object as the value passed to reply listeners. -/
def msgVal (m : Msg) : Val :=
  .obj [("type", .str m.type), ("id", .str m.id),
        ("payload", m.payload), ("error", m.error)]

/-- The client coordinator state observable through `src/client.js`:
the `_pending` table, the dispatch-registered one-shot listeners, the
per-id timeout agents (remaining retransmissions and the captured
request), the dispatch promises, the log of emitted events, and the log
of transmissions (`sling`). -/
structure ClientState where
  pending : List (String × Request)
  listeners : List (String × ListenerAct)
  timers : List (String × (Nat × Request))
  promises : List (String × PromiseState)
  emitted : List (String × Val)
  sent : List Request

/-- Run one fired listener. `replyAct` is the body
`delete this._pending[id]; this.emit('clear', timeoutAgent)` (the
permanent `clear` listener is `clearInterval`); `okAct` and `errAct`
settle the dispatch promise with `arg.payload` / `arg.error`. -/
def fireAct (arg : Val) (s : ClientState) : ListenerAct → ClientState
  | .replyAct id =>
      { s with pending := eraseA id s.pending,
               timers := eraseA id s.timers,
               emitted := s.emitted ++ [("clear", .str id)] }
  | .okAct id =>
      { s with promises := settleAtA id (.resolved (arg.getField "payload")) s.promises }
  | .errAct id =>
      { s with promises := settleAtA id (.rejectedErr (arg.getField "error")) s.promises }

/-- `this.emit(k, arg)`: log the event, remove the one-shot listeners
registered under `k`, and fire them in registration order. -/
def emitEvent (k : String) (arg : Val) (s : ClientState) : ClientState :=
  let acts := selectA k s.listeners
  let s1 := { s with listeners := eraseA k s.listeners,
                     emitted := s.emitted ++ [(k, arg)] }
  acts.foldl (fireAct arg) s1

/-- Client construction options used by the embedding (`attempts`). -/
structure ClientCfg where
  attempts : Nat

/-- The body of `dispatch(type, payload)` once the `opened` promise has
resolved, for a fresh id: emit `request`, start the timeout agent with
`attempts - 1` retransmissions remaining, create the pending entry,
register the `REPLY:<id>`, `OK:<id>`, `ERR:<id>` one-shot listeners and
transmit the encoded request. -/
def dispatch (cfg : ClientCfg) (id ty : String) (pl : Val) (s : ClientState) :
    ClientState :=
  let req : Request := ⟨ty, id, pl⟩
  { s with
    emitted := s.emitted ++ [("request", .undefined)],
    timers := s.timers ++ [(id, (cfg.attempts - 1, req))],
    pending := s.pending ++ [(id, req)],
    listeners := s.listeners ++
      [("REPLY:" ++ id, .replyAct id), ("OK:" ++ id, .okAct id),
       ("ERR:" ++ id, .errAct id)],
    promises := s.promises ++ [(id, .unsettled)],
    sent := s.sent ++ [req] }

/-- One firing of the interval callback built by `_getTimeoutAgent`: with
retries remaining, decrement and retransmit; with none, emit `clear`
(stopping the interval), emit `TIMEOUT:<id>` and reject the dispatch
promise with the `Timeout` error. The pending entry is not touched. -/
def tickTimer (id : String) (s : ClientState) : ClientState :=
  match lookupA id s.timers with
  | none => s
  | some (a, req) =>
    if a ≠ 0 then
      { s with timers := mapAtA id (fun p => (p.1 - 1, p.2)) s.timers,
               sent := s.sent ++ [req] }
    else
      let s1 := { s with timers := eraseA id s.timers,
                         emitted := s.emitted ++ [("clear", .str id)] }
      let s2 := emitEvent ("TIMEOUT:" ++ id) .undefined s1
      { s2 with promises := settleAtA id .rejectedTimeout s2.promises }

/-- `handleMessage`: a `PUSH` emits its `event` with its `payload`; any
other message is emitted to `REPLY:<id>` and `<type>:<id>`. -/
def handleMessage (m : Msg) (s : ClientState) : ClientState :=
  if m.type = "PUSH" then emitEvent m.event m.payload s
  else
    emitEvent (m.type ++ ":" ++ m.id) (msgVal m)
      (emitEvent ("REPLY:" ++ m.id) (msgVal m) s)

/-- The empty client state (fresh coordinator, before any dispatch). -/
def initClient : ClientState := ⟨[], [], [], [], [], []⟩

/-- An asynchronous event hitting the coordinator: an incoming message or
one firing of a timeout agent. -/
inductive Sig where
  | msg (m : Msg)
  | tick (id : String)

/-- Apply one signal. -/
def stepSig (s : ClientState) : Sig → ClientState
  | .msg m => handleMessage m s
  | .tick id => tickTimer id s

/-- Apply a sequence of signals in order. -/
def runSigs (sigs : List Sig) (s : ClientState) : ClientState :=
  sigs.foldl stepSig s

/-- Whether a signal delivers an event to the `REPLY:<id>` listener of
`id` (either emit key of a non-PUSH message, or a PUSH whose event field
is literally that key). -/
def deliversReply (id : String) : Sig → Bool
  | .msg m =>
      if m.type = "PUSH" then m.event == "REPLY:" ++ id
      else m.id == id || m.type ++ ":" ++ m.id == "REPLY:" ++ id
  | .tick _ => false

/-- The listener table created by one `dispatch` for id `id`. -/
def canonL (id : String) : List (String × ListenerAct) :=
  [("REPLY:" ++ id, .replyAct id), ("OK:" ++ id, .okAct id),
   ("ERR:" ++ id, .errAct id)]

/-- The pending entry of `id` is live: it is in the `_pending` table and
its `REPLY:<id>` cleanup listener is registered; all dispatch listeners
present are among the canonical three of this id. -/
def AliveFor (id : String) (s : ClientState) : Prop :=
  (lookupA id s.pending).isSome = true
  ∧ selectA ("REPLY:" ++ id) s.listeners = [ListenerAct.replyAct id]
  ∧ s.listeners.Sublist (canonL id)

/-- The pending entry of `id` has been destroyed: it is gone from the
`_pending` table and its `REPLY:<id>` listener is gone. -/
def DeadFor (id : String) (s : ClientState) : Prop :=
  lookupA id s.pending = none
  ∧ selectA ("REPLY:" ++ id) s.listeners = ([] : List ListenerAct)

/-- The exact client state after dispatching id `id` from a fresh
coordinator with `attempts = a ≥ 1` and then letting the timeout agent
fire `k` times with no reply: the request has been transmitted
`min (k + 1) a` times, after the `a`-th firing the promise is rejected
with `Timeout` and the interval is cleared, while the pending entry and
the listeners remain. -/
def afterTicks (a : Nat) (id ty : String) (pl : Val) (k : Nat) : ClientState :=
  let req : Request := ⟨ty, id, pl⟩
  { pending := [(id, req)],
    listeners := canonL id,
    timers := if k < a then [(id, (a - 1 - k, req))] else [],
    promises := [(id, if k < a then .unsettled else .rejectedTimeout)],
    emitted := [("request", .undefined)] ++
      (if k < a then [] else [("clear", .str id), ("TIMEOUT:" ++ id, .undefined)]),
    sent := List.replicate (min (k + 1) a) req }

/-- The type literal the client's `ping` convenience method dispatches
(`this.dispatch('$OOMPA/PING')` in `src/client.js`). -/
def OompaClient.pingDispatchType : String := "$OOMPA/PING"

/-- A server middleware `(request, next) -> future<result>`. The source
composes JS closures; the embedding covers the protocol the chain relies
on: a middleware either short-circuits with its own (resolved or failed)
result without calling `next`, or calls `next` exactly once on a possibly
rewritten request and maps the successful result (failures from `next`
propagate). -/
inductive Mid where
  | shortCircuit (res : Except Val Val)
  | callNext (f : Request → Request) (g : Val → Except Val Val)

/-- Trace of one chain execution: which middleware (by registration
index) was entered, and whether the terminal handler was entered. -/
inductive ChainEv where
  | midEv (i : Nat)
  | termEv
deriving DecidableEq, Repr

/-- Run the chain `this._middlewareChain.concat([terminal]).map((mid, i)
=> req => mid(req, chain[i + 1]))` starting at element `i`, recording the
trace of entered elements. -/
def runChainAux (term : Request → Except Val Val) :
    Nat → List Mid → Request → Except Val Val × List ChainEv
  | _, [], r => (term r, [.termEv])
  | i, .shortCircuit res :: _, _ => (res, [.midEv i])
  | i, .callNext f g :: rest, r =>
      let out := runChainAux term (i + 1) rest (f r)
      ((match out.1 with | .ok v => g v | .error e => .error e),
       .midEv i :: out.2)

/-- Invoke `chain[0]` on the request. -/
def runChain (mids : List Mid) (term : Request → Except Val Val)
    (r : Request) : Except Val Val × List ChainEv :=
  runChainAux term 0 mids r

/-- Index of the first short-circuiting middleware, if any. -/
def firstSC : List Mid → Option Nat
  | [] => none
  | .shortCircuit _ :: _ => some 0
  | .callNext _ _ :: rest => (firstSC rest).map (· + 1)

/-- How many chain elements before the terminal are entered: every
middleware up to and including the first short-circuiting one. -/
def chainLen : List Mid → Nat
  | [] => 0
  | .shortCircuit _ :: _ => 1
  | .callNext _ _ :: rest => chainLen rest + 1

/-- A tagged reply, per the `OK`/`ERR` constructors of `src/index.js`. -/
inductive Reply where
  | OK (id : String) (payload : Val)
  | ERR (id : String) (error : Val)

/-- Events the server emits while handling one request. -/
inductive SEvent where
  | requestEv (r : Request)
  | replyEv (r : Reply)
  | staleEv (r : Reply)

/-- `if (error instanceof Error) error = error.toString()`: a native
error is replaced by its `toString()` (`name ++ ": " ++ message`); any
other thrown value passes through verbatim. -/
def errToPrintable : Val → Val
  | .jsError n m => .str (n ++ ": " ++ m)
  | v => v

/-- An application schema: task type to async handler over the payload. -/
abbrev Schema : Type := List (String × (Val → Except Val Val))

namespace OompaServer

/-- `passResult(con, request)` wraps a resolution as `OK(id, result)`. -/
def passResult (id : String) (v : Val) : Reply := .OK id v

/-- `passError(con, request)` wraps a failure as `ERR(id, e)` after the
`instanceof Error` reduction. -/
def passError (id : String) (e : Val) : Reply := .ERR id (errToPrintable e)

/-- `replyWith`: emit `reply`; send on the connection when it is `OPEN`,
else emit `stale` and drop. Returns (events, frames sent). -/
def replyWith (conOpen : Bool) (reply : Reply) : List SEvent × List Reply :=
  if conOpen then ([.replyEv reply], [reply])
  else ([.replyEv reply, .staleEv reply], [])

/-- The terminal chain element `req => this.appCall(req,
this._app[req.type])`: the schema entry is looked up on the (possibly
middleware-rewritten) request; a missing entry is the JS `TypeError` of
calling `undefined`. -/
def terminalHandler (app : Schema) : Request → Except Val Val :=
  fun r =>
    match lookupA r.type app with
    | some h => h r.payload
    | none => .error (.jsError "TypeError" "this._app[req.type] is not a function")

/-- Everything observable from one `handleRequest(request, con)` call. -/
structure HandleOut where
  events : List SEvent
  sent : List Reply
  trace : List ChainEv

/-- `handleRequest` of the WebSocket dispatcher: emit `request`; a
schema type runs the middleware chain terminated by the schema handler
and replies `OK`/`ERR`; the reserved `$OOMPA/PING` type runs the
healthcheck; anything else gets the `Unknown request type` `ERR`. -/
def handleRequest (app : Schema) (mids : List Mid) (hc : Except Val Val)
    (req : Request) (conOpen : Bool) : HandleOut :=
  if (lookupA req.type app).isSome then
    let out := runChain mids (terminalHandler app) req
    let rep := match out.1 with
      | .ok v => passResult req.id v
      | .error e => passError req.id e
    let es := replyWith conOpen rep
    ⟨SEvent.requestEv req :: es.1, es.2, out.2⟩
  else if req.type = "$OOMPA/PING" then
    let rep := match hc with
      | .ok v => passResult req.id v
      | .error e => passError req.id e
    let es := replyWith conOpen rep
    ⟨SEvent.requestEv req :: es.1, es.2, []⟩
  else
    let rep := Reply.ERR req.id (.str ("Unknown request type: \"" ++ req.type ++ "\""))
    let es := replyWith conOpen rep
    ⟨SEvent.requestEv req :: es.1, es.2, []⟩

end OompaServer

namespace OompaHttpServer

/-- The error value of the unknown-type branch of `_apiRoute` in
`src/server.js`: `new Error(\x60Unknown request type <type>\x60)`. -/
def unknownTypeError (ty : String) : Val :=
  .jsError "Error" ("Unknown request type " ++ ty)

/-- `(err && err.code) || 500`: a numeric, nonzero `code` field is the
status, else 500. -/
def errStatus (e : Val) : Nat :=
  match e.getField "code" with
  | .num n => if n = 0 then 500 else n.toNat
  | _ => 500

/-- `_handleError`: status from `err.code || 500`; a native error is sent
as `{message}`, any other value verbatim. -/
def handleError (e : Val) : Nat × Val :=
  (errStatus e,
   match e with
   | .jsError _ m => .obj [("message", .str m)]
   | v => v)

/-- `_handleResult`: status 200 with the payload. -/
def handleResult (v : Val) : Nat × Val := (200, v)

/-- The `POST /api/<type>` route of the HTTP variant: a schema type runs
the chain (the terminal looks the handler up under the original request
type, per the closure in `_apiRoute`) and maps resolution to `OK` and
failure to `ERR`; an unknown type fails with the unquoted
`Unknown request type <type>` error. Result is (status, body). -/
def apiRoute (schema : Schema) (mids : List Mid) (req : Request) : Nat × Val :=
  if (lookupA req.type schema).isSome then
    let term : Request → Except Val Val := fun r =>
      match lookupA req.type schema with
      | some h => h r.payload
      | none => .error .undefined
    match (runChain mids term req).1 with
    | .ok v => handleResult v
    | .error e => handleError e
  else handleError (unknownTypeError req.type)

end OompaHttpServer

namespace PromisePool

/-- The pool accounting of `promise-pool.js`: the set of in-flight
futures (by task id), the FIFO queue of waiters, and the limits. -/
structure PoolState where
  concurrent : Nat
  maxQueued : Nat
  active : List Nat
  waiters : List Nat
deriving DecidableEq, Repr

/-- What a call to `run` does synchronously. -/
inductive RunOutcome where
  | admitted
  | queuedUp
  | rejected (msg : String)
deriving DecidableEq, Repr

/-- `run(factory)`: admit while `|active| < concurrent`; else enqueue a
waiter while `queued < maxQueued`; else fail synchronously with the
`Queue size exceeded` rejection, changing nothing. -/
def run (t : Nat) (s : PoolState) : PoolState × RunOutcome :=
  if s.active.length < s.concurrent then
    ({ s with active := t :: s.active }, .admitted)
  else if s.waiters.length < s.maxQueued then
    ({ s with waiters := s.waiters ++ [t] }, .queuedUp)
  else (s, .rejected "Queue size exceeded")

/-- Re-enter `run` for each woken waiter, in FIFO order. -/
def wake : List Nat → PoolState → PoolState
  | [], s => s
  | w :: ws, s => wake ws (run w s).1

/-- A tracked future settles: the `done` handler removes it from the
active set, then every `once('done')` waiter registered at emit time
fires, decrementing the queue and re-entering `run`. -/
def done (t : Nat) (s : PoolState) : PoolState :=
  let s1 := { s with active := s.active.erase t }
  wake s1.waiters { s1 with waiters := [] }

/-- A pool event: a `run` call or the settling of a tracked future. -/
inductive PoolEv where
  | runEv (t : Nat)
  | doneEv (t : Nat)

/-- Apply one pool event. -/
def stepPool (s : PoolState) : PoolEv → PoolState
  | .runEv t => (run t s).1
  | .doneEv t => done t s

/-- The pool state after a sequence of events from a fresh pool with
limits `(C, Q)`. -/
def runPool (C Q : Nat) (evs : List PoolEv) : PoolState :=
  evs.foldl stepPool ⟨C, Q, [], []⟩

/-- The pool invariant: in-flight count within `concurrent`, queue length
within `maxQueued`. -/
def Inv (s : PoolState) : Prop :=
  s.active.length ≤ s.concurrent ∧ s.waiters.length ≤ s.maxQueued

end PromisePool

/-! ### Association-list lemmas -/

theorem lookupA_eraseA_self {α : Type} (k : String) (l : List (String × α)) :
    lookupA k (eraseA k l) = none := by
  induction l with
  | nil => rfl
  | cons p ps ih =>
      by_cases h : p.1 = k
      · simp [eraseA, h, ih]
      · simp [eraseA, lookupA, h, ih]

theorem lookupA_eraseA_ne {α : Type} {k k' : String} (h : k ≠ k')
    (l : List (String × α)) : lookupA k (eraseA k' l) = lookupA k l := by
  have h0 : ¬ k' = k := fun hz => h hz.symm
  induction l with
  | nil => rfl
  | cons p ps ih =>
      by_cases h1 : p.1 = k'
      · have h2 : ¬ p.1 = k := by
          intro h3
          exact h (h3 ▸ h1)
        simp [eraseA, lookupA, h1, h2, h0, ih]
      · by_cases h2 : p.1 = k
        · simp [eraseA, lookupA, h1, h2, h, ih]
        · simp [eraseA, lookupA, h1, h2, ih]

theorem lookupA_mapAtA {α : Type} (k k' : String) (f : α → α)
    (l : List (String × α)) :
    lookupA k (mapAtA k' f l) =
      if k = k' then (lookupA k l).map f else lookupA k l := by
  induction l with
  | nil => simp [mapAtA, lookupA]
  | cons p ps ih =>
      by_cases h1 : p.1 = k'
      · by_cases h2 : k = k'
        · have h3 : p.1 = k := by rw [h1, h2]
          simp [mapAtA, lookupA, h1, h2, h3]
        · have h3 : ¬ p.1 = k := by
            intro h4
            exact h2 (h4 ▸ h1)
          have h5 : ¬ k' = k := fun hz => h2 hz.symm
          simp [mapAtA, lookupA, h1, h2, h3, h5, ih]
      · by_cases h3 : p.1 = k
        · have h2 : ¬ k = k' := by
            intro h4
            exact h1 (h3.trans h4)
          simp [mapAtA, lookupA, h1, h2, h3]
        · simp [mapAtA, lookupA, h1, h3, ih]

theorem eraseA_of_selectA_nil {α : Type} {k : String} {l : List (String × α)}
    (h : selectA k l = []) : eraseA k l = l := by
  induction l with
  | nil => rfl
  | cons p ps ih =>
      by_cases h1 : p.1 = k
      · simp [selectA, h1] at h
      · simp [selectA, h1] at h
        simp [eraseA, h1, ih h]

theorem selectA_eraseA_ne {α : Type} {k k' : String} (h : k ≠ k')
    (l : List (String × α)) : selectA k (eraseA k' l) = selectA k l := by
  have h0 : ¬ k' = k := fun hz => h hz.symm
  induction l with
  | nil => rfl
  | cons p ps ih =>
      by_cases h1 : p.1 = k'
      · have h2 : ¬ p.1 = k := by
          intro h3
          exact h (h3 ▸ h1)
        simp [eraseA, selectA, h1, h2, h0, ih]
      · by_cases h2 : p.1 = k
        · simp [eraseA, selectA, h1, h2, h, ih]
        · simp [eraseA, selectA, h1, h2, ih]

theorem selectA_eraseA_self {α : Type} (k : String) (l : List (String × α)) :
    selectA k (eraseA k l) = [] := by
  induction l with
  | nil => rfl
  | cons p ps ih =>
      by_cases h1 : p.1 = k
      · simp [eraseA, h1, ih]
      · simp [eraseA, selectA, h1, ih]

theorem mem_of_mem_selectA {α : Type} {k : String} {l : List (String × α)}
    {a : α} (h : a ∈ selectA k l) : (k, a) ∈ l := by
  induction l with
  | nil => simp [selectA] at h
  | cons p ps ih =>
      by_cases h1 : p.1 = k
      · simp [selectA, h1] at h
        rcases h with h | h
        · have h5 : (k, a) = p := by
            cases p
            simp_all
          rw [h5]
          exact List.mem_cons_self _ _
        · exact List.mem_cons_of_mem _ (ih h)
      · simp [selectA, h1] at h
        exact List.mem_cons_of_mem _ (ih h)

theorem eraseA_sublist {α : Type} (k : String) (l : List (String × α)) :
    (eraseA k l).Sublist l := by
  induction l with
  | nil => simp [eraseA]
  | cons p ps ih =>
      by_cases h1 : p.1 = k
      · simp only [eraseA, h1, if_pos]
        exact ih.trans (List.sublist_cons_self p ps)
      · simp only [eraseA, h1, if_neg, not_false_iff]
        exact ih.cons₂ p

/-! ### String-key disjointness lemmas -/

theorem string_data_append (a b : String) : (a ++ b).data = a.data ++ b.data :=
  rfl

theorem str_append_ne_of_head {p q : String} (a b : String) (c d : Char)
    (cs ds : List Char) (hp : p.data = c :: cs) (hq : q.data = d :: ds)
    (hcd : c ≠ d) : p ++ a ≠ q ++ b := by
  intro h
  have h2 : (p ++ a).data = (q ++ b).data := congrArg String.data h
  rw [string_data_append, string_data_append, hp, hq] at h2
  simp only [List.cons_append, List.cons.injEq] at h2
  exact hcd h2.1

theorem replyKey_ne_okKey (x y : String) : "REPLY:" ++ x ≠ "OK:" ++ y :=
  str_append_ne_of_head x y 'R' 'O' "EPLY:".data "K:".data rfl rfl (by decide)

theorem replyKey_ne_errKey (x y : String) : "REPLY:" ++ x ≠ "ERR:" ++ y :=
  str_append_ne_of_head x y 'R' 'E' "EPLY:".data "RR:".data rfl rfl (by decide)

theorem timeoutKey_ne_replyKey (x y : String) : "TIMEOUT:" ++ x ≠ "REPLY:" ++ y :=
  str_append_ne_of_head x y 'T' 'R' "IMEOUT:".data "EPLY:".data rfl rfl (by decide)

theorem timeoutKey_ne_okKey (x y : String) : "TIMEOUT:" ++ x ≠ "OK:" ++ y :=
  str_append_ne_of_head x y 'T' 'O' "IMEOUT:".data "K:".data rfl rfl (by decide)

theorem timeoutKey_ne_errKey (x y : String) : "TIMEOUT:" ++ x ≠ "ERR:" ++ y :=
  str_append_ne_of_head x y 'T' 'E' "IMEOUT:".data "RR:".data rfl rfl (by decide)

theorem timeoutKey_ne_timeout (x : String) : "TIMEOUT:" ++ x ≠ "timeout" := by
  intro h
  have h2 : ("TIMEOUT:" ++ x).data = "timeout".data := congrArg String.data h
  rw [string_data_append] at h2
  simp only [List.cons_append, List.cons.injEq] at h2
  exact (by decide : ('T' : Char) ≠ 't') h2.1

theorem replyKey_inj {x y : String} (h : "REPLY:" ++ x = "REPLY:" ++ y) :
    x = y := by
  have h2 : ("REPLY:" ++ x).data = ("REPLY:" ++ y).data := congrArg String.data h
  rw [string_data_append, string_data_append] at h2
  have h3 : x.data = y.data := List.append_cancel_left h2
  cases x
  cases y
  exact congrArg String.mk h3

/-! ### Pool lemmas -/

theorem PromisePool.run_inv {s : PromisePool.PoolState} (t : Nat)
    (h : PromisePool.Inv s) : PromisePool.Inv (PromisePool.run t s).1 := by
  unfold PromisePool.run
  by_cases h1 : s.active.length < s.concurrent
  · simp only [h1, if_pos]
    exact ⟨h1, h.2⟩
  · by_cases h2 : s.waiters.length < s.maxQueued
    · simp only [h1, h2, if_neg, if_pos, not_false_iff]
      refine ⟨h.1, ?_⟩
      simpa using h2
    · simp only [h1, h2, if_neg, not_false_iff]
      exact h

theorem PromisePool.wake_inv {s : PromisePool.PoolState} (ws : List Nat)
    (h : PromisePool.Inv s) : PromisePool.Inv (PromisePool.wake ws s) := by
  induction ws generalizing s with
  | nil => exact h
  | cons w ws ih => exact ih (PromisePool.run_inv w h)

theorem PromisePool.done_inv {s : PromisePool.PoolState} (t : Nat)
    (h : PromisePool.Inv s) : PromisePool.Inv (PromisePool.done t s) := by
  unfold PromisePool.done
  apply PromisePool.wake_inv
  exact ⟨le_trans (List.Sublist.length_le (s.active.erase_sublist t)) h.1,
         by simp⟩

theorem PromisePool.foldl_inv {s : PromisePool.PoolState}
    (evs : List PromisePool.PoolEv) (h : PromisePool.Inv s) :
    PromisePool.Inv (evs.foldl PromisePool.stepPool s) := by
  induction evs generalizing s with
  | nil => exact h
  | cons ev evs ih =>
      cases ev with
      | runEv t => exact ih (PromisePool.run_inv t h)
      | doneEv t => exact ih (PromisePool.done_inv t h)

/-! ### Middleware-chain trace lemma -/

theorem runChainAux_trace (term : Request → Except Val Val) :
    ∀ (mids : List Mid) (i : Nat) (r : Request),
    (runChainAux term i mids r).2 =
      (List.range (chainLen mids)).map (fun j => ChainEv.midEv (i + j)) ++
        (if firstSC mids = none then [ChainEv.termEv] else []) := by
  intro mids
  induction mids with
  | nil =>
      intro i r
      simp [runChainAux, chainLen, firstSC]
  | cons m rest ih =>
      intro i r
      cases m with
      | shortCircuit res =>
          simp [runChainAux, chainLen, firstSC, List.range_succ]
      | callNext f g =>
          have hcomp : ((fun j => ChainEv.midEv (i + j)) ∘ Nat.succ) =
              (fun j => ChainEv.midEv (i + 1 + j)) := by
            funext j
            show ChainEv.midEv (i + (j + 1)) = ChainEv.midEv (i + 1 + j)
            congr 1
            omega
          simp only [runChainAux, ih (i + 1) (f r), chainLen, firstSC,
            List.range_succ_eq_map, List.map_cons, List.map_map,
            Option.map_eq_none', Nat.add_zero, List.cons_append]
          rw [hcomp]

theorem chainLen_eq_firstSC (mids : List Mid) :
    chainLen mids =
      (match firstSC mids with | none => mids.length | some k => k + 1) := by
  induction mids with
  | nil => rfl
  | cons m rest ih =>
      cases m with
      | shortCircuit res => rfl
      | callNext f g =>
          cases h : firstSC rest with
          | none =>
              simp only [chainLen, firstSC, h, Option.map_none', List.length_cons]
              rw [ih]
              simp [h]
          | some k =>
              simp only [chainLen, firstSC, h, Option.map_some']
              rw [ih]
              simp [h]

/-! ## Claim C4: the reserved ping type -/

/-- C4 counterexample: a request whose type is literally `$PING` does not
invoke the healthcheck; with a healthy healthcheck the server still
replies with the unknown-type `ERR`, because the reserved type in the
code is `$OOMPA/PING`. -/
theorem ping_literal_type_cex :
    (OompaServer.handleRequest [] [] (.ok (.str "healthy"))
        ⟨"$PING", "p1", .vnull⟩ true).sent
      = [Reply.ERR "p1" (.str "Unknown request type: \"$PING\"")]
    ∧ ∀ v : Val, Reply.ERR "p1" (.str "Unknown request type: \"$PING\"")
        ≠ Reply.OK "p1" v :=
  ⟨rfl, fun _ h => Reply.noConfusion h⟩

/-- C4 (amended): the reserved type is `$OOMPA/PING`. When that type is
not a schema key, the server invokes the healthcheck as the handler and
replies `OK` with its resolution or `ERR` with its (printable) rejection;
the client's `ping` dispatches exactly this type. -/
theorem ping_reserved_type (app : Schema) (mids : List Mid) (id : String)
    (pl v e : Val) (h : lookupA OompaClient.pingDispatchType app = none) :
    (OompaServer.handleRequest app mids (.ok v)
        ⟨OompaClient.pingDispatchType, id, pl⟩ true).sent = [Reply.OK id v]
    ∧ (OompaServer.handleRequest app mids (.error e)
        ⟨OompaClient.pingDispatchType, id, pl⟩ true).sent
        = [Reply.ERR id (errToPrintable e)] := by
  have h3 : lookupA "$OOMPA/PING" app = none := h
  constructor <;>
    simp [OompaServer.handleRequest, h3, OompaClient.pingDispatchType,
      OompaServer.replyWith, OompaServer.passResult, OompaServer.passError]

/-- C4 witness: the amended theorem applied at a concrete schema and
healthcheck results. -/
theorem ping_reserved_type_witness :
    (OompaServer.handleRequest [("ADD", fun p => .ok p)] [] (.ok (.str "up"))
        ⟨OompaClient.pingDispatchType, "w4", .vnull⟩ true).sent
      = [Reply.OK "w4" (.str "up")]
    ∧ (OompaServer.handleRequest [("ADD", fun p => .ok p)] [] (.error (.jsError "Error" "down"))
        ⟨OompaClient.pingDispatchType, "w4", .vnull⟩ true).sent
      = [Reply.ERR "w4" (errToPrintable (.jsError "Error" "down"))] :=
  ping_reserved_type [("ADD", fun p => .ok p)] [] "w4" .vnull (.str "up")
    (.jsError "Error" "down") rfl

/-! ## Claim C5: the unknown-type error -/

/-- C5 counterexample: the HTTP variant replies to an unknown type with
the message `Unknown request type NOPE` (no colon, no quotes), not the
quoted `Unknown request type: "NOPE"` form the claim states, and its
error body carries no request id. -/
theorem http_unknown_type_cex :
    (OompaHttpServer.apiRoute [] [] ⟨"NOPE", "n1", .vnull⟩)
      = (500, .obj [("message", .str "Unknown request type NOPE")])
    ∧ "Unknown request type NOPE" ≠ "Unknown request type: \"NOPE\"" :=
  ⟨rfl, by decide⟩

/-- C5 (amended): for a type neither in the schema nor the reserved ping
type, the WebSocket server replies `ERR(id, Unknown request type:
"<type>")` with the type quoted, while the HTTP variant answers status
500 with body `message = Unknown request type <type>`, unquoted and
without the id. -/
theorem unknown_type_reply (app : Schema) (mids : List Mid)
    (hc : Except Val Val) (req : Request)
    (h1 : lookupA req.type app = none) (h2 : req.type ≠ "$OOMPA/PING") :
    (OompaServer.handleRequest app mids hc req true).sent
      = [Reply.ERR req.id (.str ("Unknown request type: \"" ++ req.type ++ "\""))]
    ∧ (OompaHttpServer.apiRoute app mids req)
      = (500, .obj [("message", .str ("Unknown request type " ++ req.type))]) := by
  constructor
  · simp [OompaServer.handleRequest, h1, h2, OompaServer.replyWith]
  · simp [OompaHttpServer.apiRoute, h1, OompaHttpServer.handleError,
      OompaHttpServer.unknownTypeError, OompaHttpServer.errStatus, Val.getField]

/-- C5 witness: the amended theorem applied at a concrete unknown type. -/
theorem unknown_type_reply_witness :
    (OompaServer.handleRequest [("ADD", fun p => .ok p)] [] (.ok .vnull)
        ⟨"NOPE2", "w5", .vnull⟩ true).sent
      = [Reply.ERR "w5" (.str ("Unknown request type: \"" ++ "NOPE2" ++ "\""))]
    ∧ (OompaHttpServer.apiRoute [("ADD", fun p => .ok p)] [] ⟨"NOPE2", "w5", .vnull⟩)
      = (500, .obj [("message", .str ("Unknown request type " ++ "NOPE2"))]) :=
  unknown_type_reply [("ADD", fun p => .ok p)] [] (.ok .vnull)
    ⟨"NOPE2", "w5", .vnull⟩ rfl (by decide)

/-! ## Claim C6: the shape of handler-failure replies -/

/-- C6 counterexample: a handler rejecting with the native error
`Error("Zero div")` produces `ERR(id, "Error: Zero div")` — the
`toString()` of the error, not its bare message as the claim states. -/
theorem native_error_tostring_cex :
    (OompaServer.handleRequest
        [("DIV", fun _ => .error (.jsError "Error" "Zero div"))] []
        (.ok .vnull) ⟨"DIV", "d1", .vnull⟩ true).sent
      = [Reply.ERR "d1" (.str "Error: Zero div")]
    ∧ "Error: Zero div" ≠ "Zero div" :=
  ⟨rfl, by decide⟩

/-- C6 (amended): when the handler chain of a schema-typed request fails
with `e`, the server replies `ERR(id, errToPrintable e)`, where a native
error is replaced by its `toString()` (`name: message`) and any other
thrown value passes through verbatim. -/
theorem handler_error_reply (app : Schema) (mids : List Mid)
    (hc : Except Val Val) (req : Request) (e : Val)
    (h1 : (lookupA req.type app).isSome = true)
    (h2 : (runChain mids (OompaServer.terminalHandler app) req).1 = .error e) :
    (OompaServer.handleRequest app mids hc req true).sent
      = [Reply.ERR req.id (errToPrintable e)]
    ∧ (∀ n m, errToPrintable (.jsError n m) = .str (n ++ ": " ++ m))
    ∧ ∀ v : Val, (∀ n m, v ≠ .jsError n m) → errToPrintable v = v := by
  refine ⟨?_, fun n m => rfl, ?_⟩
  · simp [OompaServer.handleRequest, h1, h2, OompaServer.replyWith,
      OompaServer.passError]
  · intro v hv
    cases v with
    | jsError n m => exact absurd rfl (hv n m)
    | undefined => rfl
    | vnull => rfl
    | str s => rfl
    | num n => rfl
    | obj fields => rfl

/-- C6 witness: the amended theorem applied at a handler that rejects
with a non-error value, which passes through verbatim. -/
theorem handler_error_reply_witness :
    (OompaServer.handleRequest [("DIV", fun _ => .error (.num 7))] []
        (.ok .vnull) ⟨"DIV", "w6", .vnull⟩ true).sent
      = [Reply.ERR "w6" (errToPrintable (.num 7))]
    ∧ (∀ n m, errToPrintable (.jsError n m) = .str (n ++ ": " ++ m))
    ∧ ∀ v : Val, (∀ n m, v ≠ .jsError n m) → errToPrintable v = v :=
  handler_error_reply [("DIV", fun _ => .error (.num 7))] [] (.ok .vnull)
    ⟨"DIV", "w6", .vnull⟩ (.num 7) rfl rfl

/-! ## Claim C7: middleware order and the terminal handler -/

/-- C7: for a schema-typed request, the constructed chain enters the
middlewares in registration order (indices `0, 1, …`) up to and including
the first short-circuiting one, and enters the terminal handler exactly
once if and only if no middleware short-circuits (`chainLen` counts the
entered middlewares: all of them when none short-circuits, else up to the
first short-circuit). -/
theorem middleware_chain_order (app : Schema) (mids : List Mid)
    (hc : Except Val Val) (req : Request) (conOpen : Bool)
    (h : (lookupA req.type app).isSome = true) :
    (OompaServer.handleRequest app mids hc req conOpen).trace
      = (List.range (chainLen mids)).map ChainEv.midEv ++
          (if firstSC mids = none then [ChainEv.termEv] else [])
    ∧ chainLen mids =
        (match firstSC mids with | none => mids.length | some k => k + 1) := by
  constructor
  · have htr := runChainAux_trace (OompaServer.terminalHandler app) mids 0 req
    simp only [Nat.zero_add] at htr
    simp [OompaServer.handleRequest, h, runChain, htr]
  · exact chainLen_eq_firstSC mids

/-- C7 witness: two middlewares, the second short-circuiting, on a
concrete schema request: the trace enters middlewares 0 and 1 and never
the terminal. -/
theorem middleware_chain_order_witness :
    (OompaServer.handleRequest [("ADD", fun p => .ok p)]
        [Mid.callNext (fun r => r) .ok, Mid.shortCircuit (.ok .vnull)]
        (.ok .vnull) ⟨"ADD", "w7", .vnull⟩ true).trace
      = (List.range (chainLen [Mid.callNext (fun r => r) .ok,
          Mid.shortCircuit (.ok .vnull)])).map ChainEv.midEv ++
          (if firstSC [Mid.callNext (fun r => r) .ok,
              Mid.shortCircuit (.ok .vnull)] = none
           then [ChainEv.termEv] else [])
    ∧ chainLen [Mid.callNext (fun r => r) .ok, Mid.shortCircuit (.ok .vnull)]
      = (match firstSC [Mid.callNext (fun r => r) .ok,
            Mid.shortCircuit (.ok .vnull)] with
         | none => ([Mid.callNext (fun r => r) .ok,
             Mid.shortCircuit (.ok .vnull)] : List Mid).length
         | some k => k + 1) :=
  middleware_chain_order [("ADD", fun p => .ok p)]
    [Mid.callNext (fun r => r) .ok, Mid.shortCircuit (.ok .vnull)]
    (.ok .vnull) ⟨"ADD", "w7", .vnull⟩ true rfl

/-! ## Claim C8: pool bounds and synchronous rejection -/

/-- C8: along every event sequence from a fresh pool, the in-flight count
stays within `maxConcurrent` and the queue within `maxQueued`; and a
`run` arriving with the pool at `maxConcurrent` and the queue at
`maxQueued` changes nothing and fails synchronously with the
`Queue size exceeded` (QueueFull) rejection. -/
theorem pool_bounds_queue_full :
    (∀ (C Q : Nat) (evs : List PromisePool.PoolEv),
       PromisePool.Inv (PromisePool.runPool C Q evs))
    ∧ ∀ (t : Nat) (s : PromisePool.PoolState),
        s.concurrent ≤ s.active.length → s.maxQueued ≤ s.waiters.length →
        PromisePool.run t s = (s, .rejected "Queue size exceeded") := by
  constructor
  · intro C Q evs
    exact PromisePool.foldl_inv evs (by constructor <;> simp)
  · intro t s h1 h2
    simp [PromisePool.run, Nat.not_lt.mpr h1, Nat.not_lt.mpr h2]

/-- C8 witness: the invariant evaluated on a concrete overloaded run, and
the synchronous rejection at a concrete full pool. -/
theorem pool_bounds_queue_full_witness :
    PromisePool.Inv (PromisePool.runPool 2 1
      [.runEv 0, .runEv 1, .runEv 2, .runEv 3, .doneEv 0])
    ∧ PromisePool.run 9 ⟨1, 0, [5], []⟩
      = (⟨1, 0, [5], []⟩, .rejected "Queue size exceeded") :=
  ⟨pool_bounds_queue_full.1 2 1 [.runEv 0, .runEv 1, .runEv 2, .runEv 3, .doneEv 0],
   pool_bounds_queue_full.2 9 ⟨1, 0, [5], []⟩ (by decide) (by decide)⟩

/-! ### Settled promises are never changed -/

theorem settleP_of_settled {o : PromiseState} (h : o ≠ .unsettled)
    (n : PromiseState) : settleP o n = o := by
  cases o with
  | unsettled => exact absurd rfl h
  | resolved v => rfl
  | rejectedErr e => rfl
  | rejectedTimeout => rfl

theorem lookupA_settleAtA (k k' : String) (n : PromiseState)
    (ps : List (String × PromiseState)) :
    lookupA k (settleAtA k' n ps) =
      if k = k' then (lookupA k ps).map (fun o => settleP o n)
      else lookupA k ps :=
  lookupA_mapAtA k k' (fun o => settleP o n) ps

theorem settleAtA_settled {id : String} {o : PromiseState}
    {ps : List (String × PromiseState)} (h1 : lookupA id ps = some o)
    (h2 : o ≠ .unsettled) (k : String) (n : PromiseState) :
    lookupA id (settleAtA k n ps) = some o := by
  rw [lookupA_settleAtA]
  by_cases h3 : id = k
  · subst h3
    rw [if_pos rfl, h1]
    simp [settleP_of_settled h2]
  · simp [h3, h1]

theorem fireAct_promise_settled {id : String} {o : PromiseState}
    {s : ClientState} (h1 : lookupA id s.promises = some o)
    (h2 : o ≠ .unsettled) (arg : Val) (a : ListenerAct) :
    lookupA id (fireAct arg s a).promises = some o := by
  cases a with
  | replyAct x => exact h1
  | okAct x => exact settleAtA_settled h1 h2 x _
  | errAct x => exact settleAtA_settled h1 h2 x _

theorem foldl_fireAct_promise_settled {id : String} {o : PromiseState}
    (arg : Val) (acts : List ListenerAct) :
    ∀ s : ClientState, lookupA id s.promises = some o → o ≠ .unsettled →
    lookupA id (acts.foldl (fireAct arg) s).promises = some o := by
  induction acts with
  | nil => exact fun s h1 _ => h1
  | cons a acts ih =>
      intro s h1 h2
      exact ih (fireAct arg s a) (fireAct_promise_settled h1 h2 arg a) h2

theorem emitEvent_promise_settled {id : String} {o : PromiseState}
    {s : ClientState} (h1 : lookupA id s.promises = some o)
    (h2 : o ≠ .unsettled) (k : String) (arg : Val) :
    lookupA id (emitEvent k arg s).promises = some o := by
  unfold emitEvent
  exact foldl_fireAct_promise_settled arg _ _ h1 h2

theorem stepSig_promise_settled {id : String} {o : PromiseState}
    {s : ClientState} (h1 : lookupA id s.promises = some o)
    (h2 : o ≠ .unsettled) (sig : Sig) :
    lookupA id (stepSig s sig).promises = some o := by
  cases sig with
  | msg m =>
      show lookupA id (handleMessage m s).promises = some o
      unfold handleMessage
      by_cases h3 : m.type = "PUSH"
      · simp only [h3, if_pos]
        exact emitEvent_promise_settled h1 h2 _ _
      · simp only [h3, if_neg, not_false_iff]
        exact emitEvent_promise_settled
          (emitEvent_promise_settled h1 h2 _ _) h2 _ _
  | tick i =>
      show lookupA id (tickTimer i s).promises = some o
      unfold tickTimer
      cases hl : lookupA i s.timers with
      | none => exact h1
      | some p =>
          obtain ⟨a, req⟩ := p
          dsimp only
          by_cases ha : a = 0
          · rw [if_neg (not_not_intro ha)]
            refine settleAtA_settled ?_ h2 i PromiseState.rejectedTimeout
            refine emitEvent_promise_settled ?_ h2 ("TIMEOUT:" ++ i) Val.undefined
            exact h1
          · rw [if_pos ha]
            exact h1

/-! ## Claim C1: at most one terminal outcome per dispatch -/

/-- C1: once the promise of a dispatched request id has settled (with a
resolution, an `ERR` rejection, or the `Timeout` rejection), no further
sequence of incoming messages or timer firings — including more `OK`,
`ERR` or timeout signals for the same id — can change that outcome. -/
theorem client_reply_at_most_once (s : ClientState) (id : String)
    (o : PromiseState) (h1 : lookupA id s.promises = some o)
    (h2 : o ≠ .unsettled) (sigs : List Sig) :
    lookupA id (runSigs sigs s).promises = some o := by
  induction sigs generalizing s with
  | nil => exact h1
  | cons sig sigs ih => exact ih (stepSig s sig) (stepSig_promise_settled h1 h2 sig)

/-- C1 witness: a dispatch resolved by an `OK` keeps its payload even
when a later `ERR` for the same id arrives. -/
theorem client_reply_at_most_once_witness :
    lookupA "w1" (runSigs [.msg ⟨"ERR", "w1", "", .vnull, .str "late"⟩]
        (runSigs [.msg ⟨"OK", "w1", "", .num 8, .vnull⟩]
          (dispatch ⟨3⟩ "w1" "ADD" .vnull initClient))).promises
      = some (.resolved (.num 8)) :=
  client_reply_at_most_once
    (runSigs [.msg ⟨"OK", "w1", "", .num 8, .vnull⟩]
      (dispatch ⟨3⟩ "w1" "ADD" .vnull initClient))
    "w1" (.resolved (.num 8)) rfl
    (fun hx => PromiseState.noConfusion hx)
    [.msg ⟨"ERR", "w1", "", .vnull, .str "late"⟩]

/-! ### Emitting to a key with no listeners only logs the event -/

theorem emitEvent_no_listener {k : String} {s : ClientState}
    (h : selectA k s.listeners = []) (arg : Val) :
    emitEvent k arg s = { s with emitted := s.emitted ++ [(k, arg)] } := by
  unfold emitEvent
  rw [h, eraseA_of_selectA_nil h]
  rfl

/-! ## Claim C9: messages routed to no listener -/

/-- C9 counterexample: an incoming message of type `FOO` (neither `OK`
nor `ERR` nor `PUSH`) whose id matches a pending dispatch is not ignored:
its `REPLY:<id>` emission destroys the pending entry and clears the
retry timer, while the dispatch promise stays unsettled forever. -/
theorem unknown_message_deletes_pending_cex :
    lookupA "c" (handleMessage ⟨"FOO", "c", "", .vnull, .vnull⟩
        (dispatch ⟨3⟩ "c" "JOB" .vnull initClient)).pending = none
    ∧ lookupA "c" (handleMessage ⟨"FOO", "c", "", .vnull, .vnull⟩
        (dispatch ⟨3⟩ "c" "JOB" .vnull initClient)).timers = none
    ∧ lookupA "c" (handleMessage ⟨"FOO", "c", "", .vnull, .vnull⟩
        (dispatch ⟨3⟩ "c" "JOB" .vnull initClient)).promises
      = some PromiseState.unsettled
    ∧ lookupA "c" (dispatch ⟨3⟩ "c" "JOB" .vnull initClient).pending
      = some ⟨"JOB", "c", .vnull⟩ :=
  ⟨rfl, rfl, rfl, rfl⟩

/-- C9 (amended): a non-PUSH message whose two emission keys
(`REPLY:<id>` and `<type>:<id>`) match no registered listener is ignored:
the pending table, listeners, timers and promises are all unchanged and
only the emission log grows. A non-PUSH message whose id does match a
pending dispatch destroys that entry whatever its type. -/
theorem unmatched_message_ignored (m : Msg) (s : ClientState)
    (h1 : m.type ≠ "PUSH")
    (h2 : selectA ("REPLY:" ++ m.id) s.listeners = [])
    (h3 : selectA (m.type ++ ":" ++ m.id) s.listeners = []) :
    handleMessage m s =
      { s with emitted := s.emitted ++
          [("REPLY:" ++ m.id, msgVal m), (m.type ++ ":" ++ m.id, msgVal m)] } := by
  unfold handleMessage
  rw [if_neg h1, emitEvent_no_listener h2]
  have h4 : selectA (m.type ++ ":" ++ m.id)
      ({ s with emitted := s.emitted ++ [("REPLY:" ++ m.id, msgVal m)] }
        : ClientState).listeners = [] := h3
  rw [emitEvent_no_listener h4]
  simp

/-- C9 witness: the amended theorem applied at a fresh coordinator with
no listeners at all. -/
theorem unmatched_message_ignored_witness :
    handleMessage ⟨"FOO", "z9", "", .vnull, .vnull⟩ initClient =
      { initClient with emitted :=
          initClient.emitted ++
            [("REPLY:" ++ "z9", msgVal ⟨"FOO", "z9", "", .vnull, .vnull⟩),
             ("FOO" ++ ":" ++ "z9", msgVal ⟨"FOO", "z9", "", .vnull, .vnull⟩)] } :=
  unmatched_message_ignored ⟨"FOO", "z9", "", .vnull, .vnull⟩ initClient
    (by decide) rfl rfl

/-! ## Claim C10: the frame effect of PUSH messages -/

/-- C10 counterexample: a PUSH whose `event` field is the string
`REPLY:d` while id `d` is pending does not leave the pending table
untouched: emitting that event fires the `REPLY:d` cleanup listener and
destroys the pending entry. -/
theorem push_collision_cex :
    lookupA "d" (handleMessage ⟨"PUSH", "zzz", "REPLY:d", .vnull, .vnull⟩
        (dispatch ⟨3⟩ "d" "JOB" .vnull initClient)).pending = none
    ∧ lookupA "d" (dispatch ⟨3⟩ "d" "JOB" .vnull initClient).pending
      = some ⟨"JOB", "d", .vnull⟩ :=
  ⟨rfl, rfl⟩

/-- C10 (amended): a PUSH message emits exactly the event named by its
`event` field with its payload; provided that event name is not itself a
registered listener key (`REPLY:<id>`, `OK:<id>` or `ERR:<id>` of a
pending dispatch), everything else is unchanged, whatever id field the
PUSH carries. -/
theorem push_frame_effect (s : ClientState) (ev : String) (pl : Val)
    (h : selectA ev s.listeners = []) :
    ∀ (i : String) (er : Val),
      handleMessage ⟨"PUSH", i, ev, pl, er⟩ s =
        { s with emitted := s.emitted ++ [(ev, pl)] } := by
  intro i er
  unfold handleMessage
  rw [if_pos rfl]
  exact emitEvent_no_listener h pl

/-- C10 witness: the amended theorem applied at a fresh coordinator; the
resulting state is the same whatever id the PUSH carries. -/
theorem push_frame_effect_witness :
    handleMessage ⟨"PUSH", "any-id", "news", .num 1, .vnull⟩ initClient =
      { initClient with emitted := initClient.emitted ++ [("news", .num 1)] } :=
  push_frame_effect initClient "news" (.num 1) rfl "any-id" .vnull

/-! ### Listener firing and the pending table -/

theorem fireAct_listeners (arg : Val) (s : ClientState) (a : ListenerAct) :
    (fireAct arg s a).listeners = s.listeners := by
  cases a <;> rfl

theorem foldl_fireAct_listeners (arg : Val) (acts : List ListenerAct) :
    ∀ s : ClientState, (acts.foldl (fireAct arg) s).listeners = s.listeners := by
  induction acts with
  | nil => exact fun s => rfl
  | cons a acts ih =>
      intro s
      rw [List.foldl_cons, ih, fireAct_listeners]

theorem emitEvent_listeners (k : String) (arg : Val) (s : ClientState) :
    (emitEvent k arg s).listeners = eraseA k s.listeners := by
  unfold emitEvent
  dsimp only
  rw [foldl_fireAct_listeners]

theorem fireAct_pending_none {id : String} {s : ClientState}
    (h : lookupA id s.pending = none) (arg : Val) (a : ListenerAct) :
    lookupA id (fireAct arg s a).pending = none := by
  cases a with
  | replyAct x =>
      by_cases hx : id = x
      · subst hx
        exact lookupA_eraseA_self id s.pending
      · show lookupA id (eraseA x s.pending) = none
        rw [lookupA_eraseA_ne hx]
        exact h
  | okAct x => exact h
  | errAct x => exact h

theorem foldl_fireAct_pending_none {id : String} (arg : Val)
    (acts : List ListenerAct) :
    ∀ s : ClientState, lookupA id s.pending = none →
      lookupA id (acts.foldl (fireAct arg) s).pending = none := by
  induction acts with
  | nil => exact fun s h => h
  | cons a acts ih =>
      intro s h
      exact ih (fireAct arg s a) (fireAct_pending_none h arg a)

theorem fireAct_pending_of_no_reply {id : String} {a : ListenerAct}
    (ha : a ≠ ListenerAct.replyAct id) (arg : Val) (s : ClientState) :
    lookupA id (fireAct arg s a).pending = lookupA id s.pending := by
  cases a with
  | replyAct x =>
      have hx : id ≠ x := by
        intro hz
        exact ha (by rw [hz])
      exact lookupA_eraseA_ne hx s.pending
  | okAct x => rfl
  | errAct x => rfl

theorem foldl_fireAct_pending_of_no_reply {id : String} (arg : Val)
    (acts : List ListenerAct)
    (h : ∀ a ∈ acts, a ≠ ListenerAct.replyAct id) :
    ∀ s : ClientState,
      lookupA id (acts.foldl (fireAct arg) s).pending = lookupA id s.pending := by
  induction acts with
  | nil => exact fun s => rfl
  | cons a acts ih =>
      intro s
      rw [List.foldl_cons,
        ih (fun x hx => h x (List.mem_cons_of_mem a hx)),
        fireAct_pending_of_no_reply (h a (List.mem_cons_self a acts)) arg s]

theorem acts_no_replyAct {id : String} {l : List (String × ListenerAct)}
    (hsub : l.Sublist (canonL id)) {k : String} (hk : k ≠ "REPLY:" ++ id) :
    ∀ a ∈ selectA k l, a ≠ ListenerAct.replyAct id := by
  intro a ha heq
  subst heq
  have hm : (k, ListenerAct.replyAct id) ∈ l := mem_of_mem_selectA ha
  have hm2 := hsub.subset hm
  simp only [canonL, List.mem_cons, List.mem_singleton, Prod.mk.injEq,
    List.not_mem_nil, or_false] at hm2
  rcases hm2 with ⟨hm2, _⟩ | ⟨_, hm2⟩ | ⟨_, hm2⟩
  · exact hk hm2
  · exact ListenerAct.noConfusion hm2
  · exact ListenerAct.noConfusion hm2

/-! ### Life and death of a pending entry -/

theorem AliveFor_of_eq {id : String} {s s' : ClientState}
    (hp : s'.pending = s.pending) (hl : s'.listeners = s.listeners)
    (h : AliveFor id s) : AliveFor id s' :=
  ⟨hp ▸ h.1, hl ▸ h.2.1, hl ▸ h.2.2⟩

theorem DeadFor_of_eq {id : String} {s s' : ClientState}
    (hp : s'.pending = s.pending) (hl : s'.listeners = s.listeners)
    (h : DeadFor id s) : DeadFor id s' :=
  ⟨hp ▸ h.1, hl ▸ h.2⟩

theorem emitEvent_dead {id : String} {s : ClientState} (h : DeadFor id s)
    (k : String) (arg : Val) : DeadFor id (emitEvent k arg s) := by
  refine ⟨?_, ?_⟩
  · unfold emitEvent
    dsimp only
    exact foldl_fireAct_pending_none arg _ _ h.1
  · rw [emitEvent_listeners]
    by_cases hk : ("REPLY:" ++ id) = k
    · rw [← hk, selectA_eraseA_self]
    · rw [selectA_eraseA_ne hk]
      exact h.2

theorem emitEvent_alive {id k : String} {s : ClientState}
    (hk : k ≠ "REPLY:" ++ id) (h : AliveFor id s) (arg : Val) :
    AliveFor id (emitEvent k arg s) := by
  refine ⟨?_, ?_, ?_⟩
  · unfold emitEvent
    dsimp only
    rw [foldl_fireAct_pending_of_no_reply arg _ (acts_no_replyAct h.2.2 hk)]
    exact h.1
  · rw [emitEvent_listeners, selectA_eraseA_ne (fun hz => hk hz.symm)]
    exact h.2.1
  · rw [emitEvent_listeners]
    exact (eraseA_sublist k s.listeners).trans h.2.2

theorem emitEvent_kill {id : String} {s : ClientState} (h : AliveFor id s)
    (arg : Val) : DeadFor id (emitEvent ("REPLY:" ++ id) arg s) := by
  unfold emitEvent
  dsimp only
  rw [h.2.1]
  refine ⟨?_, ?_⟩
  · simp [fireAct, lookupA_eraseA_self]
  · simp [fireAct, selectA_eraseA_self]

theorem tickTimer_alive {id : String} {s : ClientState} (h : AliveFor id s)
    (i : String) : AliveFor id (tickTimer i s) := by
  unfold tickTimer
  cases hl : lookupA i s.timers with
  | none => exact h
  | some p =>
      obtain ⟨a, req⟩ := p
      dsimp only
      by_cases ha : a = 0
      · rw [if_neg (not_not_intro ha)]
        have h1 : AliveFor id
            ({ s with timers := eraseA i s.timers,
                      emitted := s.emitted ++ [("clear", Val.str i)] } : ClientState) :=
          AliveFor_of_eq rfl rfl h
        have h2 := emitEvent_alive (timeoutKey_ne_replyKey i id) h1 Val.undefined
        exact AliveFor_of_eq rfl rfl h2
      · rw [if_pos ha]
        exact AliveFor_of_eq rfl rfl h

theorem tickTimer_dead {id : String} {s : ClientState} (h : DeadFor id s)
    (i : String) : DeadFor id (tickTimer i s) := by
  unfold tickTimer
  cases hl : lookupA i s.timers with
  | none => exact h
  | some p =>
      obtain ⟨a, req⟩ := p
      dsimp only
      by_cases ha : a = 0
      · rw [if_neg (not_not_intro ha)]
        have h1 : DeadFor id
            ({ s with timers := eraseA i s.timers,
                      emitted := s.emitted ++ [("clear", Val.str i)] } : ClientState) :=
          DeadFor_of_eq rfl rfl h
        have h2 := emitEvent_dead h1 ("TIMEOUT:" ++ i) Val.undefined
        exact DeadFor_of_eq rfl rfl h2
      · rw [if_pos ha]
        exact DeadFor_of_eq rfl rfl h

theorem stepSig_alive {id : String} {s : ClientState} (h : AliveFor id s)
    {sig : Sig} (hd : deliversReply id sig = false) :
    AliveFor id (stepSig s sig) := by
  cases sig with
  | tick i => exact tickTimer_alive h i
  | msg m =>
      show AliveFor id (handleMessage m s)
      unfold handleMessage
      by_cases ht : m.type = "PUSH"
      · rw [if_pos ht]
        simp only [deliversReply, ht, if_pos] at hd
        exact emitEvent_alive (by simpa using hd) h m.payload
      · rw [if_neg ht]
        simp only [deliversReply, ht, if_neg, not_false_iff,
          Bool.or_eq_false_iff, beq_eq_false_iff_ne] at hd
        have hk1 : ("REPLY:" ++ m.id) ≠ ("REPLY:" ++ id) :=
          fun hz => hd.1 (replyKey_inj hz)
        exact emitEvent_alive hd.2 (emitEvent_alive hk1 h (msgVal m)) (msgVal m)

theorem stepSig_kill {id : String} {s : ClientState} (h : AliveFor id s)
    {sig : Sig} (hd : deliversReply id sig = true) :
    DeadFor id (stepSig s sig) := by
  cases sig with
  | tick i => simp [deliversReply] at hd
  | msg m =>
      show DeadFor id (handleMessage m s)
      unfold handleMessage
      by_cases ht : m.type = "PUSH"
      · rw [if_pos ht]
        simp only [deliversReply, ht, if_pos, beq_iff_eq] at hd
        rw [hd]
        exact emitEvent_kill h m.payload
      · rw [if_neg ht]
        simp only [deliversReply, ht, if_neg, not_false_iff,
          Bool.or_eq_true, beq_iff_eq] at hd
        by_cases hid : m.id = id
        · rw [hid]
          exact emitEvent_dead (emitEvent_kill h (msgVal m)) _ (msgVal m)
        · have hk2 : m.type ++ ":" ++ m.id = "REPLY:" ++ id := by
            rcases hd with hd | hd
            · exact absurd hd hid
            · exact hd
          have hk1 : ("REPLY:" ++ m.id) ≠ ("REPLY:" ++ id) :=
            fun hz => hid (replyKey_inj hz)
          rw [hk2]
          exact emitEvent_kill (emitEvent_alive hk1 h (msgVal m)) (msgVal m)

theorem stepSig_dead {id : String} {s : ClientState} (h : DeadFor id s)
    (sig : Sig) : DeadFor id (stepSig s sig) := by
  cases sig with
  | msg m =>
      show DeadFor id (handleMessage m s)
      unfold handleMessage
      by_cases ht : m.type = "PUSH"
      · rw [if_pos ht]
        exact emitEvent_dead h _ m.payload
      · rw [if_neg ht]
        exact emitEvent_dead (emitEvent_dead h _ (msgVal m)) _ (msgVal m)
  | tick i => exact tickTimer_dead h i

theorem runSigs_dead {id : String} (sigs : List Sig) :
    ∀ s : ClientState, DeadFor id s → DeadFor id (runSigs sigs s) := by
  induction sigs with
  | nil => exact fun s h => h
  | cons sig sigs ih =>
      intro s h
      exact ih (stepSig s sig) (stepSig_dead h sig)

theorem runSigs_alive_iff {id : String} (sigs : List Sig) :
    ∀ s : ClientState, AliveFor id s →
      ((lookupA id (runSigs sigs s).pending).isSome = true ↔
        ∀ sig ∈ sigs, deliversReply id sig = false) := by
  induction sigs with
  | nil =>
      intro s h
      simpa [runSigs] using h.1
  | cons sig sigs ih =>
      intro s h
      show (lookupA id (runSigs sigs (stepSig s sig)).pending).isSome = true ↔ _
      cases hd : deliversReply id sig with
      | false =>
          rw [ih _ (stepSig_alive h hd), List.forall_mem_cons]
          simp [hd]
      | true =>
          have hdead := runSigs_dead sigs _ (stepSig_kill h hd)
          rw [hdead.1, List.forall_mem_cons]
          simp [hd]

theorem selectA_canonL_reply (id : String) :
    selectA ("REPLY:" ++ id) (canonL id) = [ListenerAct.replyAct id] := by
  have h1 : ¬("OK:" ++ id = "REPLY:" ++ id) :=
    fun h => replyKey_ne_okKey id id h.symm
  have h2 : ¬("ERR:" ++ id = "REPLY:" ++ id) :=
    fun h => replyKey_ne_errKey id id h.symm
  simp [canonL, selectA, h1, h2]

theorem selectA_canonL_timeout (id : String) :
    selectA ("TIMEOUT:" ++ id) (canonL id) = [] := by
  have h1 : ¬("REPLY:" ++ id = "TIMEOUT:" ++ id) :=
    fun h => timeoutKey_ne_replyKey id id h.symm
  have h2 : ¬("OK:" ++ id = "TIMEOUT:" ++ id) :=
    fun h => timeoutKey_ne_okKey id id h.symm
  have h3 : ¬("ERR:" ++ id = "TIMEOUT:" ++ id) :=
    fun h => timeoutKey_ne_errKey id id h.symm
  simp [canonL, selectA, h1, h2, h3]

theorem dispatch_alive (cfg : ClientCfg) (id ty : String) (pl : Val) :
    AliveFor id (dispatch cfg id ty pl initClient) := by
  refine ⟨?_, ?_, ?_⟩
  · simp [dispatch, initClient, lookupA]
  · show selectA ("REPLY:" ++ id) (canonL id) = [ListenerAct.replyAct id]
    exact selectA_canonL_reply id
  · show (canonL id).Sublist (canonL id)
    exact List.Sublist.refl _

theorem emitEvent_mk_no_listener {k : String}
    {ls : List (String × ListenerAct)} (h : selectA k ls = []) (arg : Val)
    (pd : List (String × Request)) (tm : List (String × (Nat × Request)))
    (pr : List (String × PromiseState)) (em : List (String × Val))
    (st : List Request) :
    emitEvent k arg ⟨pd, ls, tm, pr, em, st⟩ =
      ⟨pd, ls, tm, pr, em ++ [(k, arg)], st⟩ := by
  unfold emitEvent
  dsimp only
  rw [h, eraseA_of_selectA_nil h]
  rfl

/-- The full effect of the final (no retries remaining) timeout firing:
the interval is cleared and its handle dropped, `clear` and
`TIMEOUT:<id>` are emitted, and the dispatch promise is rejected with
`Timeout`; the pending table, the listeners and the transmission log are
untouched. -/
theorem tickTimer_final {id : String} {req : Request} {s : ClientState}
    (h1 : lookupA id s.timers = some (0, req))
    (h2 : selectA ("TIMEOUT:" ++ id) s.listeners = []) :
    tickTimer id s =
      { s with
        timers := eraseA id s.timers,
        promises := settleAtA id .rejectedTimeout s.promises,
        emitted := s.emitted ++
          [("clear", .str id), ("TIMEOUT:" ++ id, .undefined)] } := by
  unfold tickTimer
  rw [h1]
  dsimp only
  rw [if_neg (not_not_intro rfl)]
  rw [emitEvent_mk_no_listener h2]
  simp

/-! ## Claim C2: lifetime of a pending-table entry -/

/-- C2 counterexample: after the final timeout fires, the terminal
`Timeout` rejection has been delivered, yet the id is still in the
pending table — the entry is not destroyed on final timeout. -/
theorem pending_after_final_timeout_cex :
    lookupA "a" (tickTimer "a"
        (dispatch ⟨1⟩ "a" "SLEEP" .vnull initClient)).promises
      = some PromiseState.rejectedTimeout
    ∧ lookupA "a" (tickTimer "a"
        (dispatch ⟨1⟩ "a" "SLEEP" .vnull initClient)).pending
      = some ⟨"SLEEP", "a", .vnull⟩ :=
  ⟨rfl, rfl⟩

/-- C2 (amended): the pending entry of a dispatched id is present if and
only if no event routed to its `REPLY:<id>` listener (an `OK` or `ERR`
reply, or any other message carrying that id) has been delivered; the
final timeout rejects the dispatch promise with `Timeout` but does not
remove the pending entry. -/
theorem pending_table_lifecycle (cfg : ClientCfg) (id ty : String)
    (pl : Val) (sigs : List Sig) :
    ((lookupA id (runSigs sigs
        (dispatch cfg id ty pl initClient)).pending).isSome = true
      ↔ ∀ sig ∈ sigs, deliversReply id sig = false)
    ∧ ∀ (s : ClientState) (req : Request),
        lookupA id s.timers = some (0, req) →
        selectA ("TIMEOUT:" ++ id) s.listeners = [] →
        (tickTimer id s).pending = s.pending
        ∧ (lookupA id s.promises = some PromiseState.unsettled →
            lookupA id (tickTimer id s).promises
              = some PromiseState.rejectedTimeout) := by
  constructor
  · exact runSigs_alive_iff sigs _ (dispatch_alive cfg id ty pl)
  · intro s req h1 h2
    rw [tickTimer_final h1 h2]
    refine ⟨rfl, ?_⟩
    intro h3
    show lookupA id (settleAtA id PromiseState.rejectedTimeout s.promises)
      = some PromiseState.rejectedTimeout
    rw [lookupA_settleAtA]
    simp [h3, settleP]

/-- C2 witness: the amended theorem applied at a concrete dispatch, an
empty signal sequence, and the concrete one-attempt dispatched state
whose timer has expired. -/
theorem pending_table_lifecycle_witness :
    ((lookupA "w2" (runSigs []
        (dispatch ⟨3⟩ "w2" "T" .vnull initClient)).pending).isSome = true
      ↔ ∀ sig ∈ ([] : List Sig), deliversReply "w2" sig = false)
    ∧ ((tickTimer "w2" (dispatch ⟨1⟩ "w2" "T" .vnull initClient)).pending
        = (dispatch ⟨1⟩ "w2" "T" .vnull initClient).pending
      ∧ (lookupA "w2" (dispatch ⟨1⟩ "w2" "T" .vnull initClient).promises
            = some PromiseState.unsettled →
          lookupA "w2" (tickTimer "w2"
              (dispatch ⟨1⟩ "w2" "T" .vnull initClient)).promises
            = some PromiseState.rejectedTimeout)) :=
  ⟨(pending_table_lifecycle ⟨3⟩ "w2" "T" .vnull []).1,
   (pending_table_lifecycle ⟨1⟩ "w2" "T" .vnull []).2
     (dispatch ⟨1⟩ "w2" "T" .vnull initClient) ⟨"T", "w2", .vnull⟩ rfl rfl⟩

/-! ### The timeout/retry trajectory of an unanswered dispatch -/

theorem dispatch_init_eq (a : Nat) (id ty : String) (pl : Val)
    (h : 1 ≤ a) : dispatch ⟨a⟩ id ty pl initClient = afterTicks a id ty pl 0 := by
  have h0 : 0 < a := h
  have hm : min (0 + 1) a = 1 := by omega
  unfold dispatch initClient afterTicks canonL
  simp [h0, hm, List.replicate]

theorem tick_afterTicks (a : Nat) (id ty : String) (pl : Val)
    (k : Nat) : tickTimer id (afterTicks a id ty pl k)
      = afterTicks a id ty pl (k + 1) := by
  by_cases hk : k < a
  · by_cases hk2 : k + 1 < a
    · have hne : a - 1 - k ≠ 0 := by omega
      have he : a - 1 - k - 1 = a - 1 - (k + 1) := by omega
      have hm1 : min (k + 1) a = k + 1 := by omega
      have hm2 : min (k + 1 + 1) a = k + 1 + 1 := by omega
      unfold afterTicks tickTimer
      simp [lookupA, mapAtA, hk, hk2, hne, he, hm1, hm2,
        List.replicate_succ']
    · have hl : lookupA id (afterTicks a id ty pl k).timers
          = some (0, (⟨ty, id, pl⟩ : Request)) := by
        have ha0 : a - 1 - k = 0 := by omega
        simp [afterTicks, lookupA, hk, ha0]
      have hsel : selectA ("TIMEOUT:" ++ id)
          (afterTicks a id ty pl k).listeners = [] := by
        show selectA ("TIMEOUT:" ++ id) (canonL id) = []
        exact selectA_canonL_timeout id
      rw [tickTimer_final hl hsel]
      have hm1 : min (k + 1) a = a := by omega
      have hm2 : min (k + 1 + 1) a = a := by omega
      have hk1 : ¬ (k + 1 < a) := by omega
      unfold afterTicks
      simp [hk, hk2, hk1, hm1, hm2, eraseA, settleAtA, mapAtA, settleP]
  · have hl : lookupA id (afterTicks a id ty pl k).timers = none := by
      simp [afterTicks, hk, lookupA]
    have hk1 : ¬ (k + 1 < a) := by omega
    have hm1 : min (k + 1) a = a := by omega
    have hm2 : min (k + 1 + 1) a = a := by omega
    unfold tickTimer
    rw [hl]
    unfold afterTicks
    simp [hk, hk1, hm1, hm2]

theorem runTicks_eq (a : Nat) (id ty : String) (pl : Val) (h : 1 ≤ a)
    (k : Nat) : runSigs (List.replicate k (Sig.tick id))
      (dispatch ⟨a⟩ id ty pl initClient) = afterTicks a id ty pl k := by
  induction k with
  | zero => exact dispatch_init_eq a id ty pl h
  | succ k ih =>
      rw [List.replicate_succ']
      unfold runSigs
      rw [List.foldl_append]
      show tickTimer id (runSigs (List.replicate k (Sig.tick id))
        (dispatch ⟨a⟩ id ty pl initClient)) = _
      rw [ih]
      exact tick_afterTicks a id ty pl k

/-! ## Claim C3: timeout, retry count, and what the final expiry does -/

/-- C3 counterexample: with `attempts = 2`, after the second (final)
timeout firing the pending entry for the request is still in the table —
not removed as the claim states — and the emission log contains `clear`
and `TIMEOUT:b` but no plain `timeout` event. -/
theorem timeout_no_removal_cex :
    lookupA "b" (runSigs (List.replicate 2 (Sig.tick "b"))
        (dispatch ⟨2⟩ "b" "SLEEP" .vnull initClient)).pending
      = some ⟨"SLEEP", "b", .vnull⟩
    ∧ (runSigs (List.replicate 2 (Sig.tick "b"))
        (dispatch ⟨2⟩ "b" "SLEEP" .vnull initClient)).emitted
      = [("request", .undefined), ("clear", .str "b"), ("TIMEOUT:b", .undefined)] :=
  ⟨rfl, rfl⟩

/-- C3 (amended): an unanswered dispatch is transmitted at most
`attempts` times by the timeout agent (the initial send plus
`attempts - 1` retransmissions; reconnect re-slings are outside this
count), and once the firings reach `attempts` the dispatch promise is
rejected with `Timeout` and `TIMEOUT:<id>` is emitted — but no plain
`timeout` event is emitted and the pending entry is not removed. -/
theorem timeout_retry_behavior (cfg : ClientCfg) (id ty : String)
    (pl : Val) (k : Nat) (h : 1 ≤ cfg.attempts) :
    (runSigs (List.replicate k (Sig.tick id))
        (dispatch cfg id ty pl initClient)).sent.length ≤ cfg.attempts
    ∧ (cfg.attempts ≤ k →
        lookupA id (runSigs (List.replicate k (Sig.tick id))
            (dispatch cfg id ty pl initClient)).promises
          = some PromiseState.rejectedTimeout
        ∧ lookupA id (runSigs (List.replicate k (Sig.tick id))
            (dispatch cfg id ty pl initClient)).pending
          = some ⟨ty, id, pl⟩
        ∧ ("TIMEOUT:" ++ id, Val.undefined) ∈ (runSigs (List.replicate k (Sig.tick id))
            (dispatch cfg id ty pl initClient)).emitted
        ∧ ∀ p ∈ (runSigs (List.replicate k (Sig.tick id))
            (dispatch cfg id ty pl initClient)).emitted, p.1 ≠ "timeout") := by
  obtain ⟨a⟩ := cfg
  rw [runTicks_eq a id ty pl h k]
  constructor
  · show (List.replicate (min (k + 1) a) (⟨ty, id, pl⟩ : Request)).length ≤ a
    rw [List.length_replicate]
    exact Nat.min_le_right _ _
  · intro hak
    have hak2 : a ≤ k := hak
    have hk : ¬ (k < a) := by omega
    refine ⟨?_, ?_, ?_, ?_⟩
    · simp [afterTicks, hk, lookupA]
    · simp [afterTicks, lookupA]
    · simp [afterTicks, hk]
    · intro p hp
      simp [afterTicks, hk] at hp
      rcases hp with hp | hp | hp
      · rw [hp]
        decide
      · rw [hp]
        show ("clear" : String) ≠ "timeout"
        decide
      · rw [hp]
        exact timeoutKey_ne_timeout id

/-- C3 witness: the amended theorem applied at `attempts = 3` and five
timer firings. -/
theorem timeout_retry_behavior_witness :
    (runSigs (List.replicate 5 (Sig.tick "w3"))
        (dispatch ⟨3⟩ "w3" "SLEEP" .vnull initClient)).sent.length ≤ 3
    ∧ (3 ≤ 5 →
        lookupA "w3" (runSigs (List.replicate 5 (Sig.tick "w3"))
            (dispatch ⟨3⟩ "w3" "SLEEP" .vnull initClient)).promises
          = some PromiseState.rejectedTimeout
        ∧ lookupA "w3" (runSigs (List.replicate 5 (Sig.tick "w3"))
            (dispatch ⟨3⟩ "w3" "SLEEP" .vnull initClient)).pending
          = some ⟨"SLEEP", "w3", .vnull⟩
        ∧ ("TIMEOUT:" ++ "w3", Val.undefined) ∈ (runSigs (List.replicate 5 (Sig.tick "w3"))
            (dispatch ⟨3⟩ "w3" "SLEEP" .vnull initClient)).emitted
        ∧ ∀ p ∈ (runSigs (List.replicate 5 (Sig.tick "w3"))
            (dispatch ⟨3⟩ "w3" "SLEEP" .vnull initClient)).emitted,
            p.1 ≠ "timeout") :=
  timeout_retry_behavior ⟨3⟩ "w3" "SLEEP" .vnull 5 (by decide)

end Oompa
